import Mathlib

/-!
Shallow embedding of the kleinanzeigen_bot check-cycle engine
(`src/scheduler.py`, `src/database.py`, `src/parser.py`, `src/config.py`)
and proofs about it.

Conventions of the embedding:
* SQLite tables become Lean lists of row structures; `INSERT OR REPLACE`
  becomes filter-out-conflicting-rows-then-append.
* Python `str` is modelled as Lean `String` viewed as its list of
  characters; the Python string/regex helpers used by the parser are
  re-implemented over `List Char` (ASCII approximation of `\s`, `\w`,
  `str.lower`, `str.strip`, noted at each definition).
* HTML is modelled at the level of the parsed tree (the output of
  BeautifulSoup): a `Node` is a text node or an element with a tag,
  attributes and children.  The BeautifulSoup operations used by
  `parser.py` (`find_all`, `find`, `get_text`, `.string`,
  `find_next_sibling`) are defined over that tree in document
  (preorder) order.
* The async collaborators of the scheduler (fetcher, Telegram
  `send_message`) are modelled as oracles: a `QueryData` value says,
  for one search URL, whether the search-page fetch fails and
  otherwise which previews the page yields and how processing each
  preview turns out (`sendOk` / `sendFail` / `procError`); a
  `Nat → SendOutcome` function says how each delivery attempt of
  `_send_listing` turns out.  Wall-clock sleeps are not modelled;
  retry sleeps are counted.
* `datetime.now()` timestamps become an explicit `now : Int`
  (minutes); elapsed time is `now - check_time`.
-/

/-- ASCII whitespace test standing in for Python `\s` (which is
Unicode-aware; all strings handled by the claims are ASCII-ish). -/
def isWs (c : Char) : Bool :=
  c = ' ' || c = '\t' || c = '\n' || c = '\r' || c = '\x0b' || c = '\x0c'

/-- Python `\w` word character (ASCII approximation). -/
def isWordC (c : Char) : Bool :=
  c.isAlpha || c.isDigit || c = '_'

/-- Python `str.strip()` over a character list. -/
def trimL (l : List Char) : List Char :=
  ((l.dropWhile isWs).reverse.dropWhile isWs).reverse

/-- Python `str.lower()` over a character list (ASCII approximation). -/
def lowerL (l : List Char) : List Char :=
  l.map Char.toLower

/-- Contiguous-sublist (substring) test: Python `pat in s`. -/
def isInfixL (pat : List Char) : List Char → Bool
  | [] => pat.isEmpty
  | c :: t => pat.isPrefixOf (c :: t) || isInfixL pat t

/-- Python `pat in s` on strings. -/
def strContains (s pat : String) : Bool :=
  isInfixL pat.data s.data

/-- Python `s[:n]` (slice of the first `n` code points). -/
def takeChars (s : String) (n : Nat) : String :=
  String.mk (s.data.take n)

/-- Index of the first occurrence of `pat` in `l` (exact match). -/
def findIdx : List Char → List Char → Option Nat
  | pat, [] => if pat.isEmpty then some 0 else none
  | pat, c :: t => if pat.isPrefixOf (c :: t) then some 0 else (findIdx pat t).map (· + 1)

/-- Boundary test used for `\b` after a match: the next character (if
any) is not a word character. -/
def headNotWord (l : List Char) : Bool :=
  match l.head? with
  | none => true
  | some c => !isWordC c

/-- Boundary test used for `\b` before a match: the previous character
(if any) is not a word character. -/
def prevNotWord : Option Char → Bool
  | none => true
  | some c => !isWordC c

/-- One position of `YEAR_PATTERN = \b(19[7-9]\d|20[0-2]\d)\b`:
do the four characters spell a plausible vehicle year? -/
def yearDigits (c1 c2 c3 c4 : Char) : Bool :=
  c4.isDigit &&
    ((c1 = '1' && c2 = '9' && ('7' ≤ c3 && c3 ≤ '9')) ||
     (c1 = '2' && c2 = '0' && ('0' ≤ c3 && c3 ≤ '2')))

/-- `re.search` of `YEAR_PATTERN` over a character list; `prev` is the
character just before the current position (for the left `\b`). -/
def yearSearchAux (prev : Option Char) : List Char → Option String
  | c1 :: c2 :: c3 :: c4 :: after =>
    if yearDigits c1 c2 c3 c4 && prevNotWord prev && headNotWord after then
      some (String.mk [c1, c2, c3, c4])
    else
      yearSearchAux (some c1) (c2 :: c3 :: c4 :: after)
  | _ => none

/-- `Parser.YEAR_PATTERN.search(s)`, returning the matched group. -/
def yearSearch (s : String) : Option String :=
  yearSearchAux none s.data

/-- `re.search` of `PLZ_PATTERN = \b(\d{5})\b` over a character list. -/
def plzSearchAux (prev : Option Char) : List Char → Option String
  | c1 :: c2 :: c3 :: c4 :: c5 :: after =>
    if (c1.isDigit && c2.isDigit && c3.isDigit && c4.isDigit && c5.isDigit)
        && prevNotWord prev && headNotWord after then
      some (String.mk [c1, c2, c3, c4, c5])
    else
      plzSearchAux (some c1) (c2 :: c3 :: c4 :: c5 :: after)
  | _ => none

/-- `Parser.PLZ_PATTERN.search(s)`, returning the matched group. -/
def plzSearch (s : String) : Option String :=
  plzSearchAux none s.data

/-- A character allowed in the number part of the price pattern
`[\d.,]`. -/
def isPriceC (c : Char) : Bool :=
  c.isDigit || c = '.' || c = ','

/-- `re.search(r'([\d.,]+)\s*€', s)`, returning group 1.  The pattern is
deterministic: `[\d.,]+` is greedy up to the first non-price character
and shrinking it can never help, so a simple left-to-right scan is an
exact model. -/
def priceSearchAux : List Char → Option String
  | [] => none
  | c :: rest =>
    if isPriceC c then
      let run := (c :: rest).takeWhile isPriceC
      let after := ((c :: rest).dropWhile isPriceC).dropWhile isWs
      if after.head? = some '€' then some (String.mk run) else priceSearchAux rest
    else
      priceSearchAux rest

/-- Price-pattern search on a string. -/
def priceSearch (s : String) : Option String :=
  priceSearchAux s.data

/-- The parsed-HTML tree: what BeautifulSoup hands back for a page.
A node is a text node (NavigableString) or an element (Tag). -/
inductive Node where
  | text : String → Node
  | elem : String → List (String × String) → List Node → Node

/-- Tag name of an element node. -/
def Node.tagName : Node → Option String
  | .text _ => none
  | .elem t _ _ => some t

/-- Attribute list of a node (empty for text nodes). -/
def Node.attrsOf : Node → List (String × String)
  | .text _ => []
  | .elem _ a _ => a

/-- Child list of a node (empty for text nodes). -/
def Node.childrenOf : Node → List Node
  | .text _ => []
  | .elem _ _ cs => cs

/-- Is this node an element (Tag)? -/
def Node.isElem : Node → Bool
  | .text _ => false
  | .elem _ _ _ => true

/-- `tag.get(key)`: first attribute with the given name. -/
def getAttr (n : Node) (k : String) : Option String :=
  (n.attrsOf.find? (fun p => p.1 == k)).map (·.2)

mutual
/-- All nodes of a subtree in document (preorder) order, the root
included: the search space of `soup.find_all`. -/
def Node.flat : Node → List Node
  | .text s => [.text s]
  | .elem t a cs => .elem t a cs :: flatListN cs
/-- All nodes of a forest in document order. -/
def flatListN : List Node → List Node
  | [] => []
  | n :: r => n.flat ++ flatListN r
end

mutual
/-- All text-node strings of a subtree in document order. -/
def Node.textsOf : Node → List String
  | .text s => [s]
  | .elem _ _ cs => textsListN cs
/-- All text-node strings of a forest in document order. -/
def textsListN : List Node → List String
  | [] => []
  | n :: r => n.textsOf ++ textsListN r
end

/-- `tag.get_text()`: concatenation of all descendant strings. -/
def getTextRaw (n : Node) : String :=
  String.mk (n.textsOf.flatMap (·.data))

/-- `tag.get_text(strip=True)`: each string stripped before joining. -/
def getTextStrip (n : Node) : String :=
  String.mk (n.textsOf.flatMap (fun s => trimL s.data))

/-- `tag.string`: the single string of a chain of single-child tags,
`None` when a tag has zero or several children. -/
def Node.stringProp : Node → Option String
  | .text s => some s
  | .elem _ _ [c] => c.stringProp
  | .elem _ _ (_ :: _ :: _) => none
  | .elem _ _ [] => none

/-- `soup.find_all(pred)` restricted to elements, document order. -/
def findAllElems (doc : List Node) (p : Node → Bool) : List Node :=
  (flatListN doc).filter (fun n => n.isElem && p n)

/-- `soup.find(pred)` restricted to elements. -/
def findElem (doc : List Node) (p : Node → Bool) : Option Node :=
  (flatListN doc).find? (fun n => n.isElem && p n)

/-- `tag.find(pred)`: search the descendants of a node only. -/
def findElemIn (n : Node) (p : Node → Bool) : Option Node :=
  findElem n.childrenOf p

/-- `soup.find_all(string=pred)`: all text-node strings satisfying the
predicate, document order. -/
def findAllMatchingStrings (doc : List Node) (p : String → Bool) : List String :=
  (flatListN doc).filterMap (fun n =>
    match n with
    | .text s => if p s then some s else none
    | .elem _ _ _ => none)

/-- Every text node of a forest with the sibling context bs4's
`find_parent` / `find_next_sibling` needs: for a string inside element
`P`, `pF` is the list of P's following siblings and `gF` the list of
P's parent's following siblings. -/
def ctxNodes : List Node → List Node → List Node → List (String × List Node × List Node)
  | [], _, _ => []
  | .text s :: rest, pF, gF => (s, pF, gF) :: ctxNodes rest pF gF
  | .elem _ _ cs :: rest, pF, gF => ctxNodes cs rest pF ++ ctxNodes rest pF gF

/-- `x.find_next_sibling()`: the first following sibling that is a Tag
(strings are skipped). -/
def firstTagIn (l : List Node) : Option Node :=
  l.find? Node.isElem

/-- `config.KNOWN_BRANDS`, in source order (the order matters: the
brand loop returns the first hit). -/
def KNOWN_BRANDS : List String :=
  ["Alfa Romeo", "Audi", "BMW", "Chevrolet", "Citroën", "Dacia", "Fiat",
   "Ford", "Honda", "Hyundai", "Jaguar", "Jeep", "Kia", "Land Rover",
   "Lexus", "Mazda", "Mercedes-Benz", "Mercedes", "Mini", "Mitsubishi",
   "Nissan", "Opel", "Peugeot", "Porsche", "Renault", "Seat", "Skoda",
   "Smart", "Subaru", "Suzuki", "Tesla", "Toyota", "Volkswagen", "VW",
   "Volvo"]

/-- `parser.BASE_URL`. -/
def BASE_URL : String := "https://www.kleinanzeigen.de"

/-- The extraction sentinel. -/
def SENTINEL : String := "—"

/-- `parser.ListingPreview`. -/
structure ListingPreview where
  listing_id : String
  url : String
  title : String
deriving DecidableEq

/-- `parser.ListingDetails`. -/
structure ListingDetails where
  listing_id : String
  url : String
  title : String
  brand : String
  year : String
  price : String
  location : String
  plz : String
deriving DecidableEq

/-- `ListingDetails.format_message`. -/
def format_message (d : ListingDetails) : String :=
  let title_display := if d.title ≠ "" && d.title ≠ SENTINEL then d.title else d.brand
  let year_display := if d.year ≠ SENTINEL then d.year else SENTINEL
  "🚗 " ++ title_display ++ "\n" ++
  "📅 Год: " ++ year_display ++ "\n" ++
  "📍 " ++ d.location ++ "\n" ++
  "🏷 PLZ: " ++ d.plz ++ "\n" ++
  "💶 Цена: " ++ d.price ++ "\n" ++
  "\n" ++
  "🔗 " ++ d.url

/-- `urllib.parse.urljoin`, modelled for the cases the parser hits: an
absolute `href` is returned as is, anything else is appended to the
base (the base URL has no path component). -/
def urljoin (base href : String) : String :=
  if strContains href "://" then href else base ++ href

/-- `Parser.LISTING_ID_PATTERN.search(href).group(1)` for the pattern
`/s-anzeige/[^/]+/(\d+)-`.  The pattern is deterministic (`[^/]+` must
run exactly to the next slash, `\d+` to the next non-digit), so a
left-to-right positional scan is an exact model. -/
def listingIdScan : List Char → Option String
  | [] => none
  | c :: rest =>
    let l := c :: rest
    if "/s-anzeige/".data.isPrefixOf l then
      let afterLit := l.drop 11
      let seg := afterLit.takeWhile (· ≠ '/')
      let afterSeg := afterLit.dropWhile (· ≠ '/')
      if seg.isEmpty then listingIdScan rest
      else
        match afterSeg with
        | '/' :: tl =>
          let digits := tl.takeWhile Char.isDigit
          let afterDigits := tl.dropWhile Char.isDigit
          if !digits.isEmpty && afterDigits.head? = some '-' then
            some (String.mk digits)
          else listingIdScan rest
        | _ => listingIdScan rest
    else listingIdScan rest

/-- Listing id extracted from an `href`. -/
def listingIdFromHref (href : String) : Option String :=
  listingIdScan href.data

/-- Does an `a` element's `href` match `re.compile(r'/s-anzeige/')`
(that is, contain the literal)? -/
def hrefMatchesAnzeige (n : Node) : Bool :=
  match getAttr n "href" with
  | some h => strContains h "/s-anzeige/"
  | none => false

/-- `Parser.parse_search_page`'s per-article loop.  `seen` is the
page-local `seen_ids` set, `acc` the accumulated previews. -/
def spLoop (maxL : Int) : List Node → List String → List ListingPreview → List ListingPreview
  | [], _, acc => acc
  | art :: rest, seen, acc =>
    if (acc.length : Int) ≥ maxL then acc
    else
      -- `article.get('data-adid')` with Python truthiness ('' is falsy)
      let lid0 : Option String :=
        match getAttr art "data-adid" with
        | some v => if v ≠ "" then some v else none
        | none => none
      let link : Option Node :=
        if art.tagName = some "a" then some art
        else findElemIn art (fun n => n.tagName = some "a" && hrefMatchesAnzeige n)
      match link with
      | none => spLoop maxL rest seen acc
      | some lk =>
        match getAttr lk "href" with
        | none => spLoop maxL rest seen acc
        | some href =>
          if href = "" then spLoop maxL rest seen acc
          else
            let url := urljoin BASE_URL href
            let title := takeChars (getTextStrip lk) 100
            let lid := match lid0 with
              | some v => some v
              | none => listingIdFromHref href
            match lid with
            | none => spLoop maxL rest seen acc
            | some i =>
              if seen.contains i then spLoop maxL rest seen acc
              else spLoop maxL rest (i :: seen) (acc ++ [⟨i, url, title⟩])

/-- The effective cap of `parse_search_page`:
`max_listings = max_listings or Config.MAX_LISTINGS_PER_QUERY` —
Python `or` treats both `None` and `0` as absent. -/
def resolveMaxListings (max_listings : Option Int) (cfgMax : Int) : Int :=
  match max_listings with
  | none => cfgMax
  | some v => if v = 0 then cfgMax else v

/-- `Parser.parse_search_page(html, max_listings)`; `cfgMax` is
`Config.MAX_LISTINGS_PER_QUERY`. -/
def parse_search_page (doc : List Node) (max_listings : Option Int) (cfgMax : Int) :
    List ListingPreview :=
  let maxL := resolveMaxListings max_listings cfgMax
  let articles :=
    findAllElems doc (fun n => n.tagName = some "article" && (getAttr n "data-adid").isSome)
  let articles :=
    if articles.isEmpty then
      findAllElems doc (fun n => n.tagName = some "a" && hrefMatchesAnzeige n)
    else articles
  spLoop maxL articles [] []

/-- Is this text node an exact (whitespace- and case-insensitive) match
of the label, per `re.compile(rf'^\s*{label}\s*$', re.I)`? -/
def isLabelString (label : String) (s : String) : Bool :=
  lowerL (trimL s.data) == lowerL label.data

/-- `re.split(rf'{label}[:\s]*', text, flags=re.I)[1].strip()` when the
label occurs in the text: the segment between the end of the first
match (label plus a greedy run of colons/whitespace) and the start of
the next occurrence, stripped. -/
def labelSplitValue (label text : String) : Option String :=
  let lt := lowerL text.data
  let lp := lowerL label.data
  match findIdx lp lt with
  | none => none
  | some i =>
    let after := i + lp.length
    let pad := ((text.data.drop after).takeWhile (fun c => c = ':' || isWs c)).length
    let start := after + pad
    let rest := text.data.drop start
    let seg :=
      match findIdx lp (lt.drop start) with
      | none => rest
      | some j => rest.take j
    some (String.mk (trimL seg))

/-- `Parser._find_detail_value(soup, label)`:  find the first text node
equal to the label; take the text of the parent's next sibling tag,
else of the grandparent's next sibling tag; if the label text is
absent or both siblings are, scan `li` elements containing the label
and split off the value. -/
def find_detail_value (doc : List Node) (label : String) : Option String :=
  let liScan : Option String :=
    (findAllElems doc (fun n => n.tagName = some "li")).findSome? (fun li =>
      let txt := getTextRaw li
      if isInfixL (lowerL label.data) (lowerL txt.data) then labelSplitValue label txt
      else none)
  match (ctxNodes doc [] []).find? (fun t => isLabelString label t.1) with
  | some (_, pF, gF) =>
    match firstTagIn pF with
    | some e => some (getTextStrip e)
    | none =>
      match firstTagIn gF with
      | some e => some (getTextStrip e)
      | none => liScan
  | none => liScan

/-- `Parser._extract_title`, `<title>` fallback part:
`get_text(strip=True).split('|')[0].strip()`. -/
def titleTagText (t : Node) : String :=
  String.mk (trimL ((getTextStrip t).data.takeWhile (· ≠ '|')))

/-- `Parser._extract_title`. -/
def extract_title (doc : List Node) : String :=
  match findElem doc (fun n => n.tagName = some "h1") with
  | some h1 => getTextStrip h1
  | none =>
    let fallback :=
      match findElem doc (fun n => n.tagName = some "title") with
      | some t => titleTagText t
      | none => SENTINEL
    match findElem doc
        (fun n => n.tagName = some "meta" && getAttr n "property" = some "og:title") with
    | some m =>
      match getAttr m "content" with
      | some c => if c ≠ "" then c else fallback
      | none => fallback
    | none => fallback

/-- `Parser._extract_brand`. -/
def extract_brand (doc : List Node) (title : String) : String :=
  let tl := lowerL title.data
  match KNOWN_BRANDS.find? (fun b => isInfixL (lowerL b.data) tl) with
  | some b => b
  | none =>
    if isInfixL "vw ".data tl || "vw".data.isPrefixOf tl || isInfixL " vw".data tl then
      "Volkswagen"
    else
      let viaMarke : Option String :=
        match find_detail_value doc "Marke" with
        | none => none
        | some brand =>
          if brand ≠ "" && brand ≠ SENTINEL && brand.length < 50 then
            let b := String.mk (trimL brand.data)
            let b :=
              if "modell".data.isPrefixOf (lowerL b.data) then
                String.mk (trimL (b.data.drop 6))
              else b
            if b ≠ "" then some b else none
          else none
      match viaMarke with
      | some b => b
      | none =>
        let firstWord := String.mk ((title.data.dropWhile isWs).takeWhile (fun c => !isWs c))
        match KNOWN_BRANDS.find? (fun b => lowerL firstWord.data == lowerL b.data) with
        | some b => b
        | none => SENTINEL

/-- `Parser._extract_year`. -/
def extract_year (doc : List Node) (title : String) : String :=
  let erst := (find_detail_value doc "Erstzulassung").getD ""
  match (if erst ≠ "" then yearSearch erst else none) with
  | some y => y
  | none =>
    let bau := (find_detail_value doc "Baujahr").getD ""
    match (if bau ≠ "" then yearSearch bau else none) with
    | some y => y
    | none =>
      match yearSearch title with
      | some y => y
      | none => SENTINEL

/-- Does the node's `class` attribute match the regex (substring,
case-insensitively)?  bs4 matches each whitespace-separated class
value; for whitespace-free patterns that is equivalent to matching the
whole attribute string. -/
def classMatches (pats : List String) (n : Node) : Bool :=
  match getAttr n "class" with
  | some cls => pats.any (fun p => isInfixL p.data (lowerL cls.data))
  | none => false

/-- `Parser._extract_price`'s loop over the three eagerly-computed
find results: take the first present element whose text yields a
price match. -/
def priceFromCands : List (Option Node) → Option String
  | [] => none
  | none :: rest => priceFromCands rest
  | some el :: rest =>
    match priceSearch (getTextStrip el) with
    | some g => some (g ++ " €")
    | none => priceFromCands rest

/-- `Parser._extract_price`. -/
def extract_price (doc : List Node) : String :=
  let cands : List (Option Node) :=
    [findElem doc (fun n => n.tagName = some "h2" &&
        (match n.stringProp with | some s => (priceSearch s).isSome | none => false)),
     findElem doc (fun n => n.tagName = some "span" &&
        (match n.stringProp with | some s => (priceSearch s).isSome | none => false)),
     findElem doc (classMatches ["price", "preis"])]
  match priceFromCands cands with
  | some p => p
  | none =>
    match findElem doc (fun n => n.tagName = some "meta" && getAttr n "itemprop" = some "price") with
    | some m =>
      match getAttr m "content" with
      | some c => if c ≠ "" then c ++ " €" else SENTINEL
      | none => SENTINEL
    | none => SENTINEL

/-- `re.search(r' in ([^|]+?)(?:\s*\||\s*$)', title_text)` followed by
`.group(1).strip()`.  At each ` in ` occurrence the lazy group plus
tail alternation amount to: take the run of non-`|` characters after
it; no run means no match here (scan on); otherwise the stripped run
is the candidate (which Python then tests for truthiness). -/
def locScan : List Char → Option String
  | [] => none
  | c :: rest =>
    if " in ".data.isPrefixOf (c :: rest) then
      let seg := ((c :: rest).drop 4).takeWhile (· ≠ '|')
      if seg.isEmpty then locScan rest
      else some (String.mk (trimL seg))
    else locScan rest

/-- `Parser._extract_location`'s loop over class-matched elements. -/
def locFromClassEls : List Node → Option String
  | [] => none
  | el :: rest =>
    let t := getTextStrip el
    if t ≠ "" && t.length > 3 then some (takeChars t 100)
    else locFromClassEls rest

/-- `Parser._extract_location`. -/
def extract_location (doc : List Node) : String :=
  let classBranch :=
    match locFromClassEls (findAllElems doc (classMatches ["location", "standort", "adress"])) with
    | some loc => loc
    | none =>
      match findElem doc (fun n => getAttr n "itemprop" = some "address") with
      | some a => getTextStrip a
      | none => SENTINEL
  match findElem doc (fun n => n.tagName = some "title") with
  | some t =>
    match locScan (getTextRaw t).data with
    | some loc => if loc ≠ "" then loc else classBranch
    | none => classBranch
  | none => classBranch

/-- `Parser._extract_plz`. -/
def extract_plz (doc : List Node) (location : String) : String :=
  match plzSearch location with
  | some p => p
  | none =>
    match (findAllMatchingStrings doc (fun s => (plzSearch s).isSome)).head? with
    | some s => (plzSearch s).getD SENTINEL
    | none =>
      match findElem doc (fun n => getAttr n "itemprop" = some "postalCode") with
      | some el => (plzSearch (getTextStrip el)).getD SENTINEL
      | none => SENTINEL

/-- `Parser.parse_listing_page(html, url, listing_id)`. -/
def parse_listing_page (doc : List Node) (url : String) (listing_id : String) : ListingDetails :=
  let title := extract_title doc
  let location := extract_location doc
  { listing_id := listing_id
    url := url
    title := title
    brand := extract_brand doc title
    year := extract_year doc title
    price := extract_price doc
    location := location
    plz := extract_plz doc location }

/-- The configuration surface consumed by the engine
(`config.Config`); values come from the environment, so they are
parameters of the model. -/
structure Config where
  intervalMinutes : Int
  maxNewPerCycle : Int
  maxTestListings : Int
  maxListingsPerQuery : Int
  maxRetries : Nat
deriving DecidableEq

/-- A row of the `queries` table. -/
structure QueryRow where
  id : Nat
  chat_id : Int
  url : String
  enabled : Bool
deriving DecidableEq

/-- A row of the `seen_listings` table (timestamps elided: no claim
reads them). -/
structure SeenRow where
  listing_id : String
  chat_id : Int
  url : String
  query_id : Option Nat
deriving DecidableEq

/-- A row of the `stats` table; `check_time` is the insertion time in
minutes. -/
structure StatRow where
  chat_id : Int
  check_time : Int
  total_found : Nat
  new_found : Nat
  errors : Nat
deriving DecidableEq

/-- The SQLite database state (`database.Database`): tables as lists
in insertion order.  `settings` rows are `(chat_id, key, value)`. -/
structure Database where
  queries : List QueryRow
  seen_listings : List SeenRow
  stats : List StatRow
  settings : List (Int × String × String)
deriving DecidableEq

/-- `Database.is_listing_seen(chat_id, listing_id)`. -/
def is_listing_seen (db : Database) (chat_id : Int) (listing_id : String) : Bool :=
  db.seen_listings.any (fun r => r.listing_id == listing_id && r.chat_id == chat_id)

/-- `Database.mark_listing_sent`: `INSERT OR REPLACE` under the
`UNIQUE(listing_id, chat_id)` constraint — any conflicting row is
deleted and the fresh row appended. -/
def mark_listing_sent (db : Database) (chat_id : Int) (listing_id url : String)
    (query_id : Option Nat) : Database :=
  { db with seen_listings :=
      (db.seen_listings.filter
        (fun r => !(r.listing_id == listing_id && r.chat_id == chat_id))) ++
        [⟨listing_id, chat_id, url, query_id⟩] }

/-- `Database.record_check`: append one stats row. -/
def record_check (db : Database) (chat_id : Int) (total_found new_found errors : Nat)
    (now : Int) : Database :=
  { db with stats := db.stats ++ [⟨chat_id, now, total_found, new_found, errors⟩] }

/-- Insertion step of sorting query rows by `id` (the `ORDER BY id` of
`get_enabled_queries`). -/
def insertByQid (q : QueryRow) : List QueryRow → List QueryRow
  | [] => [q]
  | r :: t => if q.id ≤ r.id then q :: r :: t else r :: insertByQid q t

/-- Insertion sort of query rows by `id`. -/
def sortByQid : List QueryRow → List QueryRow
  | [] => []
  | q :: t => insertByQid q (sortByQid t)

/-- `Database.get_enabled_queries(chat_id)`. -/
def get_enabled_queries (db : Database) (chat_id : Int) : List QueryRow :=
  sortByQid (db.queries.filter (fun q => q.enabled && q.chat_id == chat_id))

/-- Insertion step of sorting query rows by `(chat_id, id)` (the
`ORDER BY chat_id, id` of the grouped fleet view). -/
def insertByChat (q : QueryRow) : List QueryRow → List QueryRow
  | [] => [q]
  | r :: t =>
    if q.chat_id < r.chat_id || (q.chat_id == r.chat_id && q.id ≤ r.id) then q :: r :: t
    else r :: insertByChat q t

/-- Insertion sort of query rows by `(chat_id, id)`. -/
def sortByChat : List QueryRow → List QueryRow
  | [] => []
  | q :: t => insertByChat q (sortByChat t)

/-- Group a (sorted) row list into per-chat buckets, as the Python
dict-building loop does. -/
def groupByChat : List QueryRow → List (Int × List QueryRow)
  | [] => []
  | q :: t =>
    match groupByChat t with
    | [] => [(q.chat_id, [q])]
    | (c, g) :: rest =>
      if c == q.chat_id then (c, q :: g) :: rest
      else (q.chat_id, [q]) :: (c, g) :: rest

/-- `Database.get_all_enabled_queries_grouped`. -/
def get_all_enabled_queries_grouped (db : Database) : List (Int × List QueryRow) :=
  groupByChat (sortByChat (db.queries.filter (·.enabled)))

/-- `Database.get_setting(chat_id, key)`. -/
def get_setting (db : Database) (chat_id : Int) (key : String) : Option String :=
  (db.settings.find? (fun t => t.1 == chat_id && t.2.1 == key)).map (·.2.2)

/-- Decimal digits to a number (helper for `int()`). -/
def digitsToNat (l : List Char) : Nat :=
  l.foldl (fun a c => a * 10 + (c.toNat - 48)) 0

/-- Python `int(value)` for the strings `set_interval` writes (optional
sign, decimal digits; `int()` raises on other input, which no caller
of this model produces). -/
def strToInt (s : String) : Int :=
  let l := trimL s.data
  match l with
  | '-' :: t => -(digitsToNat t : Int)
  | _ => (digitsToNat l : Int)

/-- `Database.get_interval(chat_id)`: the per-user setting when set
and non-empty, the configured base interval otherwise. -/
def get_interval (cfg : Config) (db : Database) (chat_id : Int) : Int :=
  match get_setting db chat_id "interval_minutes" with
  | none => cfg.intervalMinutes
  | some v => if v = "" then cfg.intervalMinutes else strToInt v

/-- `Database.get_last_check(chat_id)`: the newest stats row of the
user. -/
def get_last_check (db : Database) (chat_id : Int) : Option StatRow :=
  (db.stats.filter (fun r => r.chat_id == chat_id)).getLast?

/-- How handling one unseen preview inside `_check_query` turns out:
delivery acknowledged (`sendOk`), delivery returned failure after all
retries (`sendFail`), or an unexpected exception was raised while
processing the preview (`procError`). -/
inductive ProcOutcome where
  | sendOk
  | sendFail
  | procError
deriving DecidableEq

/-- What fetching and parsing one search URL yields: a `FetchError`
after the fetcher's retries, or a parsed preview list with each
preview's processing outcome. -/
inductive QueryData where
  | fetchFail
  | fetched (items : List (ListingPreview × ProcOutcome))
deriving DecidableEq

/-- Accumulator of `_check_query`'s preview loop. -/
structure QState where
  db : Database
  new_count : Nat
  sent_count : Nat
  sentIds : List String
  attempts : List String
  fetches : Nat
deriving DecidableEq

/-- Result of one `_check_query` run: final database, `total_found`,
returned `sent_count`, the log-only `new_count`, ids delivered
successfully, ids for which delivery was attempted, and the number of
page fetches performed. -/
structure QueryOutcome where
  db : Database
  total : Nat
  sent : Nat
  new_count : Nat
  sentIds : List String
  attempts : List String
  fetches : Nat
deriving DecidableEq

/-- `if max_remaining is not None and sent_count >= max_remaining`. -/
def hit_limit (mr : Option Int) (sent : Nat) : Bool :=
  match mr with
  | none => false
  | some m => (sent : Int) ≥ m

/-- The preview loop of `_check_query` (scheduler.py lines 214-255).
A seen preview is skipped; an unseen one bumps `new_count`, then the
remaining-budget check may break the loop; otherwise the detail page
is fetched and the preview processed per its outcome: on acknowledged
delivery the sent counters grow and the listing is marked sent; on
failed delivery nothing is persisted; on an unexpected error the
listing is marked sent anyway. -/
def check_query_loop (chat_id : Int) (query_id : Nat) (mr : Option Int) :
    List (ListingPreview × ProcOutcome) → QState → QState
  | [], s => s
  | (p, o) :: rest, s =>
    if is_listing_seen s.db chat_id p.listing_id then
      check_query_loop chat_id query_id mr rest s
    else
      let s1 : QState := { s with new_count := s.new_count + 1 }
      if hit_limit mr s1.sent_count then s1
      else
        let s2 : QState := { s1 with fetches := s1.fetches + 1 }
        match o with
        | .sendOk =>
          check_query_loop chat_id query_id mr rest
            { s2 with
                attempts := s2.attempts ++ [p.listing_id]
                sent_count := s2.sent_count + 1
                sentIds := s2.sentIds ++ [p.listing_id]
                db := mark_listing_sent s2.db chat_id p.listing_id p.url (some query_id) }
        | .sendFail =>
          check_query_loop chat_id query_id mr rest
            { s2 with attempts := s2.attempts ++ [p.listing_id] }
        | .procError =>
          check_query_loop chat_id query_id mr rest
            { s2 with db := mark_listing_sent s2.db chat_id p.listing_id p.url (some query_id) }

/-- `Scheduler._check_query(chat_id, query, max_remaining)`.  A search
fetch failure re-raises (`Except.error`); otherwise the preview loop
runs and `(total_found, sent_count)` is returned along with the new
database state.  The initial `fetches := 1` is the search-page
fetch. -/
def check_query (db : Database) (chat_id : Int) (query_id : Nat) (data : QueryData)
    (mr : Option Int) : Except Unit QueryOutcome :=
  match data with
  | .fetchFail => .error ()
  | .fetched items =>
    if items.isEmpty then .ok ⟨db, 0, 0, 0, [], [], 1⟩
    else
      let s := check_query_loop chat_id query_id mr items ⟨db, 0, 0, [], [], 1⟩
      .ok ⟨s.db, items.length, s.sent_count, s.new_count, s.sentIds, s.attempts, s.fetches⟩

/-- Result of one `_check_user` run: final database, the returned dict
(as an ordered key/value list, like a Python dict), ids delivered
successfully, and fetches performed. -/
structure UserOutcome where
  db : Database
  res : List (String × Int)
  sentIds : List String
  fetches : Nat
deriving DecidableEq

/-- The per-query loop of `_check_user` (scheduler.py lines 140-158).
State: database, `total_found`, `new_found`, `errors`, delivered ids,
fetch count.  A raised query bumps `errors` and continues; otherwise
counters accumulate and the loop breaks once `new_found` reaches the
positive limit. -/
def check_user_loop (chat_id : Int) (env : String → QueryData) (el : Int)
    (limitEnabled : Bool) :
    List QueryRow → Database → Nat → Nat → Nat → List String → Nat →
    Database × Nat × Nat × Nat × List String × Nat
  | [], db, total, newf, errs, sent, fet => (db, total, newf, errs, sent, fet)
  | q :: rest, db, total, newf, errs, sent, fet =>
    let pql : Option Int := if limitEnabled then some (el - (newf : Int)) else none
    match check_query db chat_id q.id (env q.url) pql with
    | .error _ =>
      check_user_loop chat_id env el limitEnabled rest db total newf (errs + 1) sent (fet + 1)
    | .ok out =>
      let total' := total + out.total
      let newf' := newf + out.sent
      if limitEnabled && decide ((newf' : Int) ≥ el) then
        (out.db, total', newf', errs, sent ++ out.sentIds, fet + out.fetches)
      else
        check_user_loop chat_id env el limitEnabled rest out.db total' newf' errs
          (sent ++ out.sentIds) (fet + out.fetches)

/-- `effective_limit = max_limit if max_limit is not None else
Config.MAX_NEW_PER_CYCLE`. -/
def effective_limit (cfg : Config) (max_limit : Option Int) : Int :=
  max_limit.getD cfg.maxNewPerCycle

/-- `Scheduler._check_user(chat_id, max_limit)` (scheduler.py lines
114-171).  With no enabled queries it returns `{"total": 0, "new": 0}`
at once; otherwise it runs every enabled query under the remaining
budget, appends one stats row, and returns
`{"total": .., "new": .., "errors": ..}`. -/
def check_user (cfg : Config) (db : Database) (chat_id : Int) (max_limit : Option Int)
    (env : String → QueryData) (now : Int) : UserOutcome :=
  let queries := get_enabled_queries db chat_id
  if queries.isEmpty then
    ⟨db, [("total", 0), ("new", 0)], [], 0⟩
  else
    let el := effective_limit cfg max_limit
    let limitEnabled := decide (el > 0)
    let r := check_user_loop chat_id env el limitEnabled queries db 0 0 0 [] 0
    match r with
    | (db', t, n, e, sent, fet) =>
      ⟨record_check db' chat_id t n e now,
       [("total", (t : Int)), ("new", (n : Int)), ("errors", (e : Int))], sent, fet⟩

/-- `Scheduler.run_check_for_user(chat_id)`: the `/test` path —
`_check_user` with `max_limit = Config.MAX_TEST_LISTINGS`. -/
def run_check_for_user (cfg : Config) (db : Database) (chat_id : Int)
    (env : String → QueryData) (now : Int) : UserOutcome :=
  check_user cfg db chat_id (some cfg.maxTestListings) env now

/-- The scheduler's mutable state: the `_is_running` single-flight
flag and the shared database. -/
structure SchedState where
  isRunning : Bool
  db : Database
deriving DecidableEq

/-- The per-user loop of `_check_all_users` (scheduler.py lines
87-108): skip a user whose custom interval is larger than the base
interval and not yet elapsed, otherwise run `_check_user` with the
default limit. -/
def sweep_users (cfg : Config) (env : String → QueryData) (now : Int) :
    List (Int × List QueryRow) → Database → Nat → Database × Nat
  | [], db, fet => (db, fet)
  | (chat_id, _) :: rest, db, fet =>
    let interval := get_interval cfg db chat_id
    let skip :=
      match get_last_check db chat_id with
      | some lastRow =>
        interval > cfg.intervalMinutes && (now - lastRow.check_time) < interval
      | none => false
    if skip then sweep_users cfg env now rest db fet
    else
      let r := check_user cfg db chat_id none env now
      sweep_users cfg env now rest r.db (fet + r.fetches)

/-- `Scheduler._check_all_users` (scheduler.py lines 74-112): a no-op
while `_is_running` is set, otherwise the fleet sweep over all users
with enabled queries, clearing the flag at the end.  The second
component counts page fetches performed by the invocation. -/
def check_all_users (cfg : Config) (s : SchedState) (env : String → QueryData)
    (now : Int) : SchedState × Nat :=
  if s.isRunning then (s, 0)
  else
    let r := sweep_users cfg env now (get_all_enabled_queries_grouped s.db) s.db 0
    (⟨false, r.1⟩, r.2)

/-- One delivery attempt of `_send_listing` as the messaging
collaborator sees it: `send_message` returned a bool, or raised. -/
inductive SendOutcome where
  | ack (b : Bool)
  | exn
deriving DecidableEq

/-- Observable result of `_send_listing`: the returned bool, how many
attempts were made, and how many retry sleeps were taken. -/
structure SendResult where
  success : Bool
  attempts : Nat
  sleeps : Nat
deriving DecidableEq

/-- The retry loop of `_send_listing` (scheduler.py lines 309-318)
over the attempt indices still to run: return success on the first
acknowledged send; after an attempt that raised, sleep `RETRY_DELAY`
if more attempts remain; an attempt that returned `False` is followed
immediately by the next one. -/
def send_listing_loop (maxRetries : Nat) (f : Nat → SendOutcome) : List Nat → SendResult
  | [] => ⟨false, 0, 0⟩
  | a :: rest =>
    match f a with
    | .ack true => ⟨true, 1, 0⟩
    | .ack false =>
      let r := send_listing_loop maxRetries f rest
      ⟨r.success, r.attempts + 1, r.sleeps⟩
    | .exn =>
      let r := send_listing_loop maxRetries f rest
      ⟨r.success, r.attempts + 1, r.sleeps + (if a < maxRetries then 1 else 0)⟩

/-- `Scheduler._send_listing`: `for attempt in range(MAX_RETRIES + 1)`. -/
def send_listing (maxRetries : Nat) (f : Nat → SendOutcome) : SendResult :=
  send_listing_loop maxRetries f (List.range (maxRetries + 1))

/-- Marking a listing makes it seen for that user. -/
theorem seen_after_mark (db : Database) (c : Int) (l u : String) (q : Option Nat) :
    is_listing_seen (mark_listing_sent db c l u q) c l = true := by
  simp [is_listing_seen, mark_listing_sent, List.any_append]

/-- After a mark, the table holds exactly one row for the pair. -/
theorem one_row_after_mark (db : Database) (c : Int) (l u : String) (q : Option Nat) :
    ((mark_listing_sent db c l u q).seen_listings.countP
      (fun r => r.listing_id == l && r.chat_id == c)) = 1 := by
  simp only [mark_listing_sent, List.countP_append]
  have h0 : (db.seen_listings.filter
      (fun r => !(r.listing_id == l && r.chat_id == c))).countP
      (fun r => r.listing_id == l && r.chat_id == c) = 0 := by
    rw [List.countP_eq_zero]
    intro a ha
    have h2 := (List.mem_filter.mp ha).2
    simp only [Bool.not_eq_true'] at h2
    simp [h2]
  rw [h0]
  simp [List.countP_cons]

/-- A mark never unmarks anything: seen rows stay seen. -/
theorem seen_mark_mono (db : Database) (c c2 : Int) (x y u : String) (q : Option Nat)
    (h : is_listing_seen db c x = true) :
    is_listing_seen (mark_listing_sent db c2 y u q) c x = true := by
  simp only [is_listing_seen, List.any_eq_true] at h ⊢
  obtain ⟨r, hr, hp⟩ := h
  by_cases hxy : (y == x && c2 == c) = true
  · refine ⟨⟨y, c2, u, q⟩, ?_, ?_⟩
    · simp [mark_listing_sent]
    · simpa using hxy
  · refine ⟨r, ?_, hp⟩
    simp only [mark_listing_sent, List.mem_append, List.mem_filter]
    left
    refine ⟨hr, ?_⟩
    simp only [Bool.not_eq_true'] at hxy ⊢
    simp only [Bool.and_eq_true, beq_iff_eq] at hp
    cases hb : (r.listing_id == y && r.chat_id == c2)
    · rfl
    · exfalso
      simp only [Bool.and_eq_true, beq_iff_eq] at hb
      apply absurd hxy
      simp [← hb.1, ← hb.2, hp.1, hp.2]

/-- Marking a different listing id leaves an unseen pair unseen. -/
theorem seen_mark_ne (db : Database) (c c2 : Int) (x y u : String) (q : Option Nat)
    (h : is_listing_seen db c x = false) (hxy : x ≠ y) :
    is_listing_seen (mark_listing_sent db c2 y u q) c x = false := by
  simp only [is_listing_seen, List.any_eq_false] at h ⊢
  intro r hr
  simp only [mark_listing_sent, List.mem_append, List.mem_filter, List.mem_singleton] at hr
  rcases hr with ⟨hr1, _⟩ | hr2
  · exact h r hr1
  · subst hr2
    simp only [Bool.and_eq_true, beq_iff_eq, not_and]
    intro hl
    exact absurd hl.symm hxy

/-- A mark does not touch the stats table. -/
theorem mark_stats (db : Database) (c : Int) (l u : String) (q : Option Nat) :
    (mark_listing_sent db c l u q).stats = db.stats := rfl

/-- The preview loop never touches the stats table. -/
theorem check_query_loop_stats (c : Int) (q : Nat) (mr : Option Int) :
    ∀ (items : List (ListingPreview × ProcOutcome)) (s : QState),
      (check_query_loop c q mr items s).db.stats = s.db.stats := by
  intro items
  induction items with
  | nil => intro s; simp [check_query_loop]
  | cons hd rest ih =>
    intro s
    obtain ⟨p, o⟩ := hd
    simp only [check_query_loop]
    split
    · exact ih s
    · split
      · rfl
      · cases o <;> simp [ih, mark_stats]

/-- The preview loop never unmarks a seen pair. -/
theorem check_query_loop_seen_mono (c : Int) (q : Nat) (mr : Option Int) (c2 : Int)
    (x : String) :
    ∀ (items : List (ListingPreview × ProcOutcome)) (s : QState),
      is_listing_seen s.db c2 x = true →
      is_listing_seen (check_query_loop c q mr items s).db c2 x = true := by
  intro items
  induction items with
  | nil => intro s h; simpa [check_query_loop] using h
  | cons hd rest ih =>
    intro s h
    obtain ⟨p, o⟩ := hd
    simp only [check_query_loop]
    split
    · exact ih s h
    · split
      · exact h
      · cases o
        · exact ih _ (seen_mark_mono _ _ _ _ _ _ _ h)
        · exact ih _ h
        · exact ih _ (seen_mark_mono _ _ _ _ _ _ _ h)

/-- A pair already seen before the loop is never attempted by it. -/
theorem check_query_loop_skips_seen (c : Int) (q : Nat) (mr : Option Int) (L : String) :
    ∀ (items : List (ListingPreview × ProcOutcome)) (s : QState),
      is_listing_seen s.db c L = true → L ∉ s.attempts →
      L ∉ (check_query_loop c q mr items s).attempts ∧
        is_listing_seen (check_query_loop c q mr items s).db c L = true := by
  intro items
  induction items with
  | nil => intro s h hn; simpa [check_query_loop] using ⟨hn, h⟩
  | cons hd rest ih =>
    intro s h hn
    obtain ⟨p, o⟩ := hd
    simp only [check_query_loop]
    split
    · exact ih s h hn
    · rename_i hseen
      have hne : p.listing_id ≠ L := by
        intro he
        rw [he] at hseen
        exact hseen h
      split
      · exact ⟨hn, h⟩
      · cases o
        · refine ih _ (seen_mark_mono _ _ _ _ _ _ _ h) ?_
          simp only [List.mem_append, List.mem_singleton]
          rintro (hc | hc)
          · exact hn hc
          · exact hne hc.symm
        · refine ih _ h ?_
          simp only [List.mem_append, List.mem_singleton]
          rintro (hc | hc)
          · exact hn hc
          · exact hne hc.symm
        · exact ih _ (seen_mark_mono _ _ _ _ _ _ _ h) hn

/-- The preview loop's sent counter never exceeds the remaining
budget: the break fires before any further send once the budget is
reached. -/
theorem check_query_loop_sent_le (c : Int) (q : Nat) (m : Int) :
    ∀ (items : List (ListingPreview × ProcOutcome)) (s : QState),
      (check_query_loop c q (some m) items s).sent_count ≤ max s.sent_count m.toNat := by
  intro items
  induction items with
  | nil => intro s; simp [check_query_loop]
  | cons hd rest ih =>
    intro s
    obtain ⟨p, o⟩ := hd
    simp only [check_query_loop]
    split
    · exact ih s
    · split
      · simp
      · rename_i hlim
        simp only [hit_limit, decide_eq_true_eq, not_le] at hlim
        have hs : s.sent_count < m.toNat := by omega
        cases o
        · exact le_trans (ih _) (by simp; omega)
        · exact le_trans (ih _) (by simp)
        · exact le_trans (ih _) (by simp)

/-- The loop's sent counter counts exactly its delivered ids. -/
theorem check_query_loop_sentIds_len (c : Int) (q : Nat) (mr : Option Int) :
    ∀ (items : List (ListingPreview × ProcOutcome)) (s : QState),
      (check_query_loop c q mr items s).sentIds.length + s.sent_count =
        (check_query_loop c q mr items s).sent_count + s.sentIds.length := by
  intro items
  induction items with
  | nil => intro s; simp [check_query_loop, Nat.add_comm]
  | cons hd rest ih =>
    intro s
    obtain ⟨p, o⟩ := hd
    simp only [check_query_loop]
    split
    · exact ih s
    · split
      · dsimp only
        omega
      · cases o
        · have := ih ({ s with
            new_count := s.new_count + 1, fetches := s.fetches + 1,
            attempts := s.attempts ++ [p.listing_id],
            sent_count := s.sent_count + 1,
            sentIds := s.sentIds ++ [p.listing_id],
            db := mark_listing_sent s.db c p.listing_id p.url (some q) })
          simp only at this ⊢
          simp only [List.length_append, List.length_singleton] at this
          omega
        · have := ih ({ s with
            new_count := s.new_count + 1, fetches := s.fetches + 1,
            attempts := s.attempts ++ [p.listing_id] })
          simpa using this
        · have := ih ({ s with
            new_count := s.new_count + 1, fetches := s.fetches + 1,
            db := mark_listing_sent s.db c p.listing_id p.url (some q) })
          simpa using this

/-- If every occurrence of listing id `x` among the previews fails
delivery, the loop neither marks `x` seen nor delivers it. -/
theorem check_query_loop_fail_pres (c : Int) (q : Nat) (mr : Option Int) (x : String) :
    ∀ (items : List (ListingPreview × ProcOutcome)) (s : QState),
      is_listing_seen s.db c x = false → x ∉ s.sentIds →
      (∀ p o, (p, o) ∈ items → p.listing_id = x → o = ProcOutcome.sendFail) →
      is_listing_seen (check_query_loop c q mr items s).db c x = false ∧
        x ∉ (check_query_loop c q mr items s).sentIds := by
  intro items
  induction items with
  | nil => intro s h hn _; simpa [check_query_loop] using ⟨h, hn⟩
  | cons hd rest ih =>
    intro s h hn hall
    obtain ⟨p, o⟩ := hd
    have hrest : ∀ p' o', (p', o') ∈ rest → p'.listing_id = x → o' = ProcOutcome.sendFail :=
      fun p' o' hm => hall p' o' (List.mem_cons_of_mem _ hm)
    simp only [check_query_loop]
    split
    · exact ih s h hn hrest
    · split
      · exact ⟨h, hn⟩
      · cases ho : o
        · have hne : p.listing_id ≠ x := by
            intro he
            have := hall p o (List.mem_cons_self _ _) he
            rw [ho] at this
            exact ProcOutcome.noConfusion this
          refine ih _ (seen_mark_ne _ _ _ _ _ _ _ h (fun he => hne he.symm)) ?_ hrest
          simp only [List.mem_append, List.mem_singleton]
          rintro (hc | hc)
          · exact hn hc
          · exact hne hc.symm
        · exact ih _ h hn hrest
        · have hne : p.listing_id ≠ x := by
            intro he
            have := hall p o (List.mem_cons_self _ _) he
            rw [ho] at this
            exact ProcOutcome.noConfusion this
          exact ih _ (seen_mark_ne _ _ _ _ _ _ _ h (fun he => hne he.symm)) hn hrest

/-- `_check_query` never touches the stats table. -/
theorem check_query_stats (db : Database) (c : Int) (q : Nat) (d : QueryData)
    (mr : Option Int) (out : QueryOutcome) (h : check_query db c q d mr = .ok out) :
    out.db.stats = db.stats := by
  cases d with
  | fetchFail => exact absurd h (by simp [check_query])
  | fetched items =>
    simp only [check_query] at h
    split at h
    · cases h
      rfl
    · cases h
      exact check_query_loop_stats c q mr items _

/-- `_check_query` with a remaining budget sends at most that many
notifications. -/
theorem check_query_sent_le (db : Database) (c : Int) (q : Nat) (d : QueryData)
    (m : Int) (out : QueryOutcome) (h : check_query db c q d (some m) = .ok out) :
    out.sent ≤ m.toNat := by
  cases d with
  | fetchFail => exact absurd h (by simp [check_query])
  | fetched items =>
    simp only [check_query] at h
    split at h
    · cases h
      simp
    · cases h
      simpa using check_query_loop_sent_le c q m items ⟨db, 0, 0, [], [], 1⟩

/-- `_check_query`'s returned sent count equals the number of ids it
delivered. -/
theorem check_query_sentIds_len (db : Database) (c : Int) (q : Nat) (d : QueryData)
    (mr : Option Int) (out : QueryOutcome) (h : check_query db c q d mr = .ok out) :
    out.sentIds.length = out.sent := by
  cases d with
  | fetchFail => exact absurd h (by simp [check_query])
  | fetched items =>
    simp only [check_query] at h
    split at h
    · cases h
      rfl
    · cases h
      simpa using check_query_loop_sentIds_len c q mr items ⟨db, 0, 0, [], [], 1⟩

/-- The per-query loop of `_check_user` never touches the stats table. -/
theorem check_user_loop_stats (c : Int) (env : String → QueryData) (el : Int) (le : Bool) :
    ∀ (qs : List QueryRow) (db : Database) (total newf errs : Nat) (sent : List String)
      (fet : Nat),
      (check_user_loop c env el le qs db total newf errs sent fet).1.stats = db.stats := by
  intro qs
  induction qs with
  | nil => intro db total newf errs sent fet; simp [check_user_loop]
  | cons q rest ih =>
    intro db total newf errs sent fet
    simp only [check_user_loop]
    split
    · exact ih db total newf (errs + 1) sent (fet + 1)
    · rename_i out hout
      split
      · exact check_query_stats db c q.id (env q.url) _ out hout
      · rw [ih]
        exact check_query_stats db c q.id (env q.url) _ out hout

/-- With the limit enabled, the per-query loop keeps `new_found` at or
under the limit and its delivered-ids list exactly as long as
`new_found`. -/
theorem check_user_loop_bound (c : Int) (env : String → QueryData) (el : Int)
    (hel : 0 < el) :
    ∀ (qs : List QueryRow) (db : Database) (total newf errs : Nat) (sent : List String)
      (fet : Nat), newf < el.toNat → sent.length = newf →
      (check_user_loop c env el true qs db total newf errs sent fet).2.2.1 ≤ el.toNat ∧
      (check_user_loop c env el true qs db total newf errs sent fet).2.2.2.2.1.length =
        (check_user_loop c env el true qs db total newf errs sent fet).2.2.1 := by
  intro qs
  induction qs with
  | nil =>
    intro db total newf errs sent fet h1 h2
    simp only [check_user_loop]
    exact ⟨Nat.le_of_lt h1, h2⟩
  | cons q rest ih =>
    intro db total newf errs sent fet h1 h2
    simp only [check_user_loop]
    split
    · exact ih db total newf (errs + 1) sent (fet + 1) h1 h2
    · rename_i out hout
      have hsent : out.sent ≤ (el - (newf : Int)).toNat :=
        check_query_sent_le db c q.id (env q.url) _ out hout
      have hlen : out.sentIds.length = out.sent :=
        check_query_sentIds_len db c q.id (env q.url) _ out hout
      have hle : newf + out.sent ≤ el.toNat := by omega
      split
      · constructor
        · exact hle
        · simp [List.length_append, h2, hlen]
      · rename_i hbreak
        simp only [Bool.true_and, decide_eq_true_eq, not_le] at hbreak
        have hlt : newf + out.sent < el.toNat := by omega
        have := ih out.db (total + out.total) (newf + out.sent) errs (sent ++ out.sentIds)
          (fet + out.fetches) hlt (by simp [List.length_append, h2, hlen])
        exact this

/-- An empty database, shared concrete input of several witnesses. -/
def dbEmpty : Database := ⟨[], [], [], []⟩

/-- The configuration defaults of `config.py`
(interval 5, per-cycle cap 0 = unlimited, test cap 10, per-query cap
50, 2 retries). -/
def cfgDefault : Config := ⟨5, 0, 10, 50, 2⟩

/-- An environment in which every search page parses to no previews. -/
def envEmpty : String → QueryData := fun _ => .fetched []

/-- A database holding one enabled query for chat 1. -/
def dbOneQ : Database := ⟨[⟨1, 1, "q", true⟩], [], [], []⟩

/-- C1: once `mark_listing_sent(S, L, ...)` succeeds, `is_listing_seen(S, L)`
returns true, the seen_listings store holds exactly one row for (L, S)
(upsert, no duplicate rows), and any later per-query check for S whose
state still has (S, L) seen skips L without attempting a delivery for
it — and leaves it seen, so the skipping persists across cycles. -/
theorem C1_dedup_contract (db : Database) (S : Int) (L u : String) (q : Option Nat) :
    is_listing_seen (mark_listing_sent db S L u q) S L = true ∧
    ((mark_listing_sent db S L u q).seen_listings.countP
      (fun r => r.listing_id == L && r.chat_id == S)) = 1 ∧
    (∀ (db2 : Database) (qid : Nat) (d : QueryData) (mr : Option Int) (out : QueryOutcome),
      is_listing_seen db2 S L = true →
      check_query db2 S qid d mr = .ok out →
      L ∉ out.attempts ∧ is_listing_seen out.db S L = true) := by
  refine ⟨seen_after_mark db S L u q, one_row_after_mark db S L u q, ?_⟩
  intro db2 qid d mr out hseen hok
  cases d with
  | fetchFail => exact absurd hok (by simp [check_query])
  | fetched items =>
    simp only [check_query] at hok
    split at hok
    · cases hok
      exact ⟨by simp, hseen⟩
    · cases hok
      have := check_query_loop_skips_seen S qid mr L items ⟨db2, 0, 0, [], [], 1⟩
        hseen (by simp)
      exact this

/-- Witness for C1 at a concrete input: after marking listing "900"
for subscriber 1, a check whose page lists "900" again attempts no
delivery for it and leaves it seen. -/
theorem C1_dedup_contract_witness :
    "900" ∉ (⟨⟨[], [⟨"900", 1, "u", none⟩], [], []⟩, 1, 0, 0, [], [], 1⟩ : QueryOutcome).attempts ∧
    is_listing_seen
      (⟨⟨[], [⟨"900", 1, "u", none⟩], [], []⟩, 1, 0, 0, [], [], 1⟩ : QueryOutcome).db 1 "900" = true :=
  (C1_dedup_contract ⟨[], [], [], []⟩ 1 "900" "u" none).2.2
    ⟨[], [⟨"900", 1, "u", none⟩], [], []⟩ 5
    (.fetched [(⟨"900", "u2", "t"⟩, .sendOk)]) none
    ⟨⟨[], [⟨"900", 1, "u", none⟩], [], []⟩, 1, 0, 0, [], [], 1⟩
    (by decide) (by rfl)

/-- C2: with a positive effective limit K, one `_check_user` run sends
at most K notifications across all of the subscriber's enabled
queries, and the "new" count it returns is also at most K. -/
theorem C2_limit_bounds_sends (cfg : Config) (db : Database) (chat : Int)
    (ml : Option Int) (env : String → QueryData) (now : Int)
    (h : 0 < effective_limit cfg ml) :
    (check_user cfg db chat ml env now).sentIds.length ≤ (effective_limit cfg ml).toNat ∧
    (∀ v, (check_user cfg db chat ml env now).res.lookup "new" = some v →
      v ≤ effective_limit cfg ml) := by
  simp only [check_user]
  split
  · constructor
    · simp
    · intro v hv
      simp [List.lookup] at hv
      omega
  · have hd : decide (effective_limit cfg ml > 0) = true := decide_eq_true h
    rw [hd]
    rcases hr : check_user_loop chat env (effective_limit cfg ml) true
        (get_enabled_queries db chat) db 0 0 0 [] 0 with ⟨db', t, n, e, sent, fet⟩
    have hb := check_user_loop_bound chat env (effective_limit cfg ml) h
      (get_enabled_queries db chat) db 0 0 0 [] 0 (by omega) rfl
    rw [hr] at hb
    simp only at hb
    constructor
    · simpa using le_trans (le_of_eq hb.2) hb.1
    · intro v hv
      simp [List.lookup] at hv
      omega

/-- Witness for C2 at a concrete input: limit 2, two enabled queries
with three unseen deliverable previews each — at most 2 notifications
go out. -/
theorem C2_limit_bounds_sends_witness :
    (check_user cfgDefault ⟨[⟨1, 7, "q1", true⟩, ⟨2, 7, "q2", true⟩], [], [], []⟩ 7 (some 2)
      (fun u => .fetched [(⟨u ++ "1", "x", "t"⟩, .sendOk), (⟨u ++ "2", "x", "t"⟩, .sendOk),
        (⟨u ++ "3", "x", "t"⟩, .sendOk)]) 0).sentIds.length ≤
      (effective_limit cfgDefault (some 2)).toNat :=
  (C2_limit_bounds_sends cfgDefault ⟨[⟨1, 7, "q1", true⟩, ⟨2, 7, "q2", true⟩], [], [], []⟩ 7
    (some 2)
    (fun u => .fetched [(⟨u ++ "1", "x", "t"⟩, .sendOk), (⟨u ++ "2", "x", "t"⟩, .sendOk),
      (⟨u ++ "3", "x", "t"⟩, .sendOk)]) 0 (by decide)).1

/-- C3 counterexample: with zero enabled queries `_check_user` returns
early and appends NO stats row (the claim asserts exactly one row
unconditionally). -/
theorem C3_counterexample :
    (check_user cfgDefault dbEmpty 1 none envEmpty 0).db.stats.length ≠
      dbEmpty.stats.length + 1 := by
  decide

/-- C3 amended: `_check_user` appends exactly one stats row whenever
the subscriber has at least one enabled query — even when every query
raised an error — but with zero enabled queries it returns early and
appends none. -/
theorem C3_stats_row (cfg : Config) (db : Database) (chat : Int) (ml : Option Int)
    (env : String → QueryData) (now : Int) :
    (get_enabled_queries db chat ≠ [] →
      (check_user cfg db chat ml env now).db.stats.length = db.stats.length + 1 ∧
      ∃ t n e, (check_user cfg db chat ml env now).db.stats =
        db.stats ++ [⟨chat, now, t, n, e⟩]) ∧
    (get_enabled_queries db chat = [] →
      (check_user cfg db chat ml env now).db.stats = db.stats) := by
  constructor
  · intro hne
    simp only [check_user]
    split
    · rename_i hemp
      exact absurd (List.isEmpty_iff.mp hemp) hne
    · rcases hr : check_user_loop chat env (effective_limit cfg ml)
          (decide (effective_limit cfg ml > 0)) (get_enabled_queries db chat) db 0 0 0 [] 0
        with ⟨db', t, n, e, sent, fet⟩
      have hst : db'.stats = db.stats := by
        have := check_user_loop_stats chat env (effective_limit cfg ml)
          (decide (effective_limit cfg ml > 0)) (get_enabled_queries db chat) db 0 0 0 [] 0
        rw [hr] at this
        exact this
      constructor
      · simp [record_check, hst]
      · exact ⟨t, n, e, by simp [record_check, hst]⟩
  · intro he
    simp only [check_user]
    split
    · rfl
    · rename_i hemp
      exact absurd (List.isEmpty_iff.mpr he) hemp

/-- Witness for C3's amended theorem: one enabled query (yielding an
empty page) appends exactly one stats row. -/
theorem C3_stats_row_witness :
    (check_user cfgDefault dbOneQ 1 none envEmpty 3).db.stats.length =
      dbOneQ.stats.length + 1 :=
  ((C3_stats_row cfgDefault dbOneQ 1 none envEmpty 3).1 (by decide)).1

/-- The "new" count `_check_query` reports to its caller (the second
element of its returned pair). -/
def returned_new (r : Except Unit QueryOutcome) : Option Nat :=
  match r with
  | .ok o => some o.sent
  | .error _ => none

/-- Whether a listing is seen in the database state `_check_query`
hands back. -/
def returned_seen (r : Except Unit QueryOutcome) (chat : Int) (lid : String) : Option Bool :=
  match r with
  | .ok o => some (is_listing_seen o.db chat lid)
  | .error _ => none

/-- C4 counterexample: one unseen preview whose delivery fails.  It is
indeed not marked seen, but — against the claim — it is NOT counted in
the new/sent count the per-query check returns and records: the
returned count is 0, not 1 (only `total_found` includes it; the
internal `new_count` that does count it is logged, never returned). -/
theorem C4_counterexample :
    returned_new (check_query dbEmpty 1 5 (.fetched [(⟨"111", "u", "t"⟩, .sendFail)]) none) =
      some 0 ∧
    returned_new (check_query dbEmpty 1 5 (.fetched [(⟨"111", "u", "t"⟩, .sendFail)]) none) ≠
      some 1 ∧
    returned_seen (check_query dbEmpty 1 5 (.fetched [(⟨"111", "u", "t"⟩, .sendFail)]) none)
      1 "111" = some false := by
  decide

/-- C4 amended: a preview whose delivery fails all retries is not
marked seen and not counted in the returned new/sent count (which
counts successful deliveries only); it still counts toward the
returned `total_found`, so found-but-unsent listings are
distinguishable in the returned counts as total minus new. -/
theorem C4_failed_delivery (db : Database) (chat : Int) (qid : Nat)
    (items : List (ListingPreview × ProcOutcome)) (mr : Option Int) (x : String)
    (out : QueryOutcome)
    (h1 : is_listing_seen db chat x = false)
    (h2 : ∀ p o, (p, o) ∈ items → p.listing_id = x → o = ProcOutcome.sendFail)
    (h3 : check_query db chat qid (.fetched items) mr = .ok out) :
    is_listing_seen out.db chat x = false ∧ x ∉ out.sentIds ∧ out.total = items.length := by
  simp only [check_query] at h3
  split at h3
  · rename_i hemp
    cases h3
    refine ⟨h1, by simp, ?_⟩
    rw [List.isEmpty_iff.mp hemp]
    rfl
  · cases h3
    have := check_query_loop_fail_pres chat qid mr x items ⟨db, 0, 0, [], [], 1⟩
      h1 (by simp) h2
    exact ⟨this.1, this.2, rfl⟩

/-- Witness for C4's amended theorem at the counterexample's input. -/
theorem C4_failed_delivery_witness :
    is_listing_seen (⟨dbEmpty, 1, 0, 1, [], ["111"], 2⟩ : QueryOutcome).db 1 "111" = false ∧
    "111" ∉ (⟨dbEmpty, 1, 0, 1, [], ["111"], 2⟩ : QueryOutcome).sentIds ∧
    (⟨dbEmpty, 1, 0, 1, [], ["111"], 2⟩ : QueryOutcome).total =
      ([(⟨"111", "u", "t"⟩, ProcOutcome.sendFail)] :
        List (ListingPreview × ProcOutcome)).length :=
  C4_failed_delivery dbEmpty 1 5 [(⟨"111", "u", "t"⟩, .sendFail)] none "111"
    ⟨dbEmpty, 1, 0, 1, [], ["111"], 2⟩
    (by decide)
    (by
      intro p o hm _
      simp only [List.mem_singleton, Prod.mk.injEq] at hm
      exact hm.2)
    (by rfl)

/-- C5: a fleet sweep invoked while the single-flight flag is set is a
no-op — it returns the state unchanged (nothing queued), performs zero
fetches, and appends zero statistics rows for any subscriber. -/
theorem C5_single_flight (cfg : Config) (s : SchedState) (env : String → QueryData)
    (now : Int) (h : s.isRunning = true) :
    check_all_users cfg s env now = (s, 0) ∧
    (check_all_users cfg s env now).1.db.stats = s.db.stats := by
  constructor <;> simp [check_all_users, h]

/-- Witness for C5 at a concrete running state. -/
theorem C5_single_flight_witness :
    check_all_users cfgDefault ⟨true, dbOneQ⟩ envEmpty 0 = (⟨true, dbOneQ⟩, 0) :=
  (C5_single_flight cfgDefault ⟨true, dbOneQ⟩ envEmpty 0 (by rfl)).1

/-- The retry loop makes at most one attempt per pending index. -/
theorem send_listing_loop_attempts_le (mR : Nat) (f : Nat → SendOutcome) :
    ∀ l : List Nat, (send_listing_loop mR f l).attempts ≤ l.length := by
  intro l
  induction l with
  | nil => simp [send_listing_loop]
  | cons a rest ih =>
    simp only [send_listing_loop]
    cases f a with
    | ack b =>
      cases b
      · simpa using Nat.add_le_add_right ih 1
      · simp
    | exn => simpa using Nat.add_le_add_right ih 1

/-- If no pending attempt is acknowledged, the loop exhausts them all
and returns failure. -/
theorem send_listing_loop_all_fail (mR : Nat) (f : Nat → SendOutcome) :
    ∀ l : List Nat, (∀ a ∈ l, f a ≠ .ack true) →
      (send_listing_loop mR f l).success = false ∧
      (send_listing_loop mR f l).attempts = l.length := by
  intro l
  induction l with
  | nil => intro _; simp [send_listing_loop]
  | cons a rest ih =>
    intro h
    have ha := h a (List.mem_cons_self _ _)
    have hr := ih (fun a' ha' => h a' (List.mem_cons_of_mem _ ha'))
    simp only [send_listing_loop]
    cases hfa : f a with
    | ack b =>
      cases b
      · simpa using hr
      · exact absurd hfa ha
    | exn => simpa using hr

/-- If no pending attempt raises, the loop never sleeps. -/
theorem send_listing_loop_no_exn (mR : Nat) (f : Nat → SendOutcome) :
    ∀ l : List Nat, (∀ a ∈ l, f a ≠ .exn) →
      (send_listing_loop mR f l).sleeps = 0 := by
  intro l
  induction l with
  | nil => intro _; simp [send_listing_loop]
  | cons a rest ih =>
    intro h
    have ha := h a (List.mem_cons_self _ _)
    have hr := ih (fun a' ha' => h a' (List.mem_cons_of_mem _ ha'))
    simp only [send_listing_loop]
    cases hfa : f a with
    | ack b => cases b <;> simp [hr]
    | exn => exact absurd hfa ha

/-- C8 counterexample: `maxRetries = 2`, the first attempt returns an
unacknowledged `False`, the second succeeds — two consecutive attempts
are made with NO inter-attempt sleep, against the claim that a fixed
delay separates consecutive attempts (the code only sleeps after an
attempt that raised). -/
theorem C8_counterexample :
    (send_listing 2 (fun i => if i == 1 then .ack true else .ack false)).attempts = 2 ∧
    (send_listing 2 (fun i => if i == 1 then .ack true else .ack false)).sleeps = 0 ∧
    (send_listing 2 (fun i => if i == 1 then .ack true else .ack false)).sleeps ≠
      (send_listing 2 (fun i => if i == 1 then .ack true else .ack false)).attempts - 1 := by
  decide

/-- C8 amended: `_send_listing` attempts the notifier at most
`maxRetries + 1` times, returns success immediately on a first-attempt
acknowledgement, returns failure (without propagating) after
exhausting all attempts when none is acknowledged, and sleeps the
fixed retry delay only after attempts that raised — never between
attempts that merely returned an unacknowledged result. -/
theorem C8_send_retry (mR : Nat) (f : Nat → SendOutcome) :
    (send_listing mR f).attempts ≤ mR + 1 ∧
    (f 0 = .ack true → send_listing mR f = ⟨true, 1, 0⟩) ∧
    ((∀ i, i ≤ mR → f i ≠ .ack true) →
      (send_listing mR f).success = false ∧ (send_listing mR f).attempts = mR + 1) ∧
    ((∀ i, i ≤ mR → f i ≠ .exn) → (send_listing mR f).sleeps = 0) := by
  refine ⟨?_, ?_, ?_, ?_⟩
  · simpa using send_listing_loop_attempts_le mR f (List.range (mR + 1))
  · intro h0
    simp only [send_listing, List.range_succ_eq_map, send_listing_loop, h0]
  · intro h
    have := send_listing_loop_all_fail mR f (List.range (mR + 1))
      (fun a ha => h a (by simpa [Nat.lt_succ_iff] using List.mem_range.mp ha))
    simpa using this
  · intro h
    exact send_listing_loop_no_exn mR f (List.range (mR + 1))
      (fun a ha => h a (by simpa [Nat.lt_succ_iff] using List.mem_range.mp ha))

/-- Witness for C8's amended theorem: an immediately acknowledged send
returns success after exactly one attempt and zero sleeps. -/
theorem C8_send_retry_witness :
    send_listing 1 (fun _ => SendOutcome.ack true) = ⟨true, 1, 0⟩ :=
  (C8_send_retry 1 (fun _ => SendOutcome.ack true)).2.1 rfl

/-- C9: an unexpected processing error on one unseen preview is caught
— the per-query loop simply continues with the remaining previews from
a state in which the listing has been marked seen — and the final
state still has the listing seen, so later cycles will not retry it. -/
theorem C9_unexpected_error_marks_seen (db : Database) (chat : Int) (qid : Nat)
    (p : ListingPreview) (rest : List (ListingPreview × ProcOutcome)) (mr : Option Int)
    (h1 : is_listing_seen db chat p.listing_id = false)
    (h2 : hit_limit mr 0 = false) :
    (check_query db chat qid (.fetched ((p, .procError) :: rest)) mr =
      .ok (let s := check_query_loop chat qid mr rest
            ⟨mark_listing_sent db chat p.listing_id p.url (some qid), 1, 0, [], [], 2⟩
           ⟨s.db, rest.length + 1, s.sent_count, s.new_count, s.sentIds, s.attempts,
            s.fetches⟩)) ∧
    (∀ out : QueryOutcome,
      check_query db chat qid (.fetched ((p, .procError) :: rest)) mr = .ok out →
      is_listing_seen out.db chat p.listing_id = true) := by
  have hstep : check_query db chat qid (.fetched ((p, .procError) :: rest)) mr =
      .ok (let s := check_query_loop chat qid mr rest
            ⟨mark_listing_sent db chat p.listing_id p.url (some qid), 1, 0, [], [], 2⟩
           ⟨s.db, rest.length + 1, s.sent_count, s.new_count, s.sentIds, s.attempts,
            s.fetches⟩) := by
    simp only [check_query, List.isEmpty_cons, check_query_loop, h1, h2]
    simp [List.length_cons]
  refine ⟨hstep, ?_⟩
  intro out hout
  rw [hstep] at hout
  cases hout
  exact check_query_loop_seen_mono chat qid mr chat p.listing_id rest _
    (seen_after_mark db chat p.listing_id p.url (some qid))

/-- Witness for C9 at a concrete input: a lone erroring preview ends
up marked seen. -/
theorem C9_unexpected_error_marks_seen_witness :
    is_listing_seen
      (⟨⟨[], [⟨"42", 1, "u", some 5⟩], [], []⟩, 1, 0, 1, [], [], 2⟩ : QueryOutcome).db
      1 "42" = true :=
  (C9_unexpected_error_marks_seen dbEmpty 1 5 ⟨"42", "u", "t"⟩ [] none
    (by decide) (by decide)).2
    ⟨⟨[], [⟨"42", 1, "u", some 5⟩], [], []⟩, 1, 0, 1, [], [], 2⟩ (by rfl)

/-- C10: with zero enabled queries the per-subscriber check returns
the two-key dict `{"total": 0, "new": 0}` with no "errors" key, while
with at least one enabled query it returns the three keys total, new,
errors — the result shape of the public `run_check_for_user`
entrypoint is not uniform across the two cases. -/
theorem C10_result_shape (cfg : Config) (db : Database) (chat : Int)
    (env : String → QueryData) (now : Int) :
    (get_enabled_queries db chat = [] →
      (run_check_for_user cfg db chat env now).res = [("total", 0), ("new", 0)] ∧
      (run_check_for_user cfg db chat env now).res.lookup "errors" = none) ∧
    (get_enabled_queries db chat ≠ [] →
      ∃ t n e, (run_check_for_user cfg db chat env now).res =
        [("total", t), ("new", n), ("errors", e)]) := by
  constructor
  · intro he
    simp only [run_check_for_user, check_user]
    rw [if_pos (List.isEmpty_iff.mpr he)]
    constructor
    · rfl
    · simp [List.lookup]
  · intro hne
    simp only [run_check_for_user, check_user]
    rw [if_neg (by simpa using (List.isEmpty_iff).not.mpr hne)]
    rcases check_user_loop chat env (effective_limit cfg (some cfg.maxTestListings))
        (decide (effective_limit cfg (some cfg.maxTestListings) > 0))
        (get_enabled_queries db chat) db 0 0 0 [] 0 with ⟨db', t, n, e, sent, fet⟩
    exact ⟨t, n, e, rfl⟩

/-- Witness for C10 at concrete inputs: the zero-query result carries
no "errors" key. -/
theorem C10_result_shape_witness :
    (run_check_for_user cfgDefault dbEmpty 1 envEmpty 0).res = [("total", 0), ("new", 0)] ∧
    (run_check_for_user cfgDefault dbEmpty 1 envEmpty 0).res.lookup "errors" = none :=
  (C10_result_shape cfgDefault dbEmpty 1 envEmpty 0).1 (by decide)

/-- Length of a Python slice `s[:n]`. -/
theorem takeChars_length_le (s : String) (n : Nat) : (takeChars s n).length ≤ n := by
  show (s.data.take n).length ≤ n
  simp [List.length_take]

/-- Invariant of `parse_search_page`'s article loop: the result stays
capped by the bound, its listing ids stay pairwise distinct, and every
accumulated title is at most 100 characters. -/
theorem spLoop_invariant (maxL : Int) :
    ∀ (arts : List Node) (seen : List String) (acc : List ListingPreview),
      (∀ p ∈ acc, p.listing_id ∈ seen) →
      (acc.map (·.listing_id)).Nodup →
      (∀ p ∈ acc, p.title.length ≤ 100) →
      (spLoop maxL arts seen acc).length ≤ max acc.length maxL.toNat ∧
      ((spLoop maxL arts seen acc).map (·.listing_id)).Nodup ∧
      (∀ p ∈ spLoop maxL arts seen acc, p.title.length ≤ 100) := by
  intro arts
  induction arts with
  | nil =>
    intro seen acc h1 h2 h3
    exact ⟨by simp [spLoop], by simpa [spLoop] using h2, by simpa [spLoop] using h3⟩
  | cons art rest ih =>
    intro seen acc h1 h2 h3
    simp only [spLoop]
    split
    · exact ⟨by simp, h2, h3⟩
    · rename_i hlt
      simp only [decide_eq_true_eq, not_le] at hlt
      have hacc : acc.length < maxL.toNat := by omega
      split
      · exact ih seen acc h1 h2 h3
      · rename_i lk _
        split
        · exact ih seen acc h1 h2 h3
        · rename_i href _
          split
          · exact ih seen acc h1 h2 h3
          · split
            · exact ih seen acc h1 h2 h3
            · rename_i i _
              split
              · exact ih seen acc h1 h2 h3
              · rename_i hcont
                have hnotin : i ∉ seen := by
                  intro hmem
                  exact hcont (List.elem_eq_true_of_mem hmem)
                have h1' : ∀ p ∈ acc ++ [⟨i, urljoin BASE_URL href, takeChars (getTextStrip lk) 100⟩],
                    p.listing_id ∈ i :: seen := by
                  intro p hp
                  rcases List.mem_append.mp hp with hp | hp
                  · exact List.mem_cons_of_mem _ (h1 p hp)
                  · rw [List.mem_singleton.mp hp]
                    exact List.mem_cons_self _ _
                have h2' : ((acc ++ [(⟨i, urljoin BASE_URL href, takeChars (getTextStrip lk) 100⟩ :
                    ListingPreview)]).map (·.listing_id)).Nodup := by
                  rw [List.map_append]
                  rw [List.nodup_append]
                  refine ⟨h2, by simp, ?_⟩
                  intro a ha hb
                  simp only [List.map_singleton, List.mem_singleton] at hb
                  subst hb
                  have : a ∈ List.map (fun p => p.listing_id) acc := ha
                  obtain ⟨p, hp, hpe⟩ := List.mem_map.mp this
                  exact hnotin (hpe ▸ h1 p hp)
                have h3' : ∀ p ∈ acc ++ [(⟨i, urljoin BASE_URL href,
                    takeChars (getTextStrip lk) 100⟩ : ListingPreview)], p.title.length ≤ 100 := by
                  intro p hp
                  rcases List.mem_append.mp hp with hp | hp
                  · exact h3 p hp
                  · rw [List.mem_singleton.mp hp]
                    exact takeChars_length_le _ _
                have := ih (i :: seen) _ h1' h2' h3'
                refine ⟨?_, this.2.1, this.2.2⟩
                refine le_trans this.1 ?_
                simp only [List.length_append, List.length_singleton]
                omega

/-- C7 amended: `parse_search_page` returns previews whose listing ids
are pairwise distinct (page-local dedup), whose length never exceeds
the EFFECTIVE bound (the given `maxListings` when nonzero, the
configured per-query cap when the bound is omitted or zero — Python
`or` treats 0 as absent), and whose titles are trimmed to at most 100
characters; a candidate without extractable id or url contributes
nothing without aborting the page. -/
theorem C7_search_page_contract (doc : List Node) (ml : Option Int) (cfgMax : Int) :
    (parse_search_page doc ml cfgMax).length ≤ (resolveMaxListings ml cfgMax).toNat ∧
    ((parse_search_page doc ml cfgMax).map (·.listing_id)).Nodup ∧
    (∀ p ∈ parse_search_page doc ml cfgMax, p.title.length ≤ 100) := by
  have h := spLoop_invariant (resolveMaxListings ml cfgMax)
    (if (findAllElems doc (fun n => n.tagName = some "article" &&
          (getAttr n "data-adid").isSome)).isEmpty then
      findAllElems doc (fun n => n.tagName = some "a" && hrefMatchesAnzeige n)
    else findAllElems doc (fun n => n.tagName = some "article" && (getAttr n "data-adid").isSome))
    [] [] (by simp) (by simp) (by simp)
  simp only [parse_search_page]
  exact ⟨by simpa using h.1, h.2.1, h.2.2⟩

/-- A search page carrying one listing card, used by C7's
counterexample. -/
def docOneCard : List Node :=
  [.elem "article" [("data-adid", "123")]
    [.elem "a" [("href", "/s-anzeige/x/123-y")] [.text "T"]]]

/-- C7 counterexample: with the explicit bound `maxListings = 0` the
code substitutes the configured default cap (Python `or` treats 0 as
falsy), so a one-card page yields 1 preview, exceeding the given
bound 0 — the claim's "length never exceeds maxListings" fails at
maxListings = 0. -/
theorem C7_counterexample :
    (parse_search_page docOneCard (some 0) 50).length = 1 ∧
    ¬((parse_search_page docOneCard (some 0) 50).length ≤ (0 : Int).toNat) := by
  decide

/-- Witness for C7's amended theorem: the single extracted preview of
the one-card page has a title within 100 characters. -/
theorem C7_search_page_contract_witness :
    (⟨"123", "https://www.kleinanzeigen.de/s-anzeige/x/123-y", "T"⟩ :
      ListingPreview).title.length ≤ 100 :=
  (C7_search_page_contract docOneCard (some 5) 50).2.2
    ⟨"123", "https://www.kleinanzeigen.de/s-anzeige/x/123-y", "T"⟩ (by decide)

/-- The tag names every recognized extraction strategy of
`parse_listing_page` searches for. -/
def BAD_TAGS : List String := ["h1", "h2", "meta", "title", "span", "li"]

/-- The structured-detail labels (lower-cased) `parse_listing_page`
looks up. -/
def DETAIL_LABELS : List String := ["marke", "erstzulassung", "baujahr"]

/-- A node carrying none of the markers `parse_listing_page`
recognizes: an element with no attributes whose tag is none of the
searched ones, or a text node with no digits that is not one of the
detail labels (up to case and surrounding whitespace). -/
def nodeOk : Node → Bool
  | .elem t a _ => a.isEmpty && !(BAD_TAGS.contains t)
  | .text s => (s.data.all (fun c => !c.isDigit)) &&
      !(DETAIL_LABELS.contains (String.mk (lowerL (trimL s.data))))

/-- A detail page containing none of the recognized
title/brand/year/price/location/postal-code markers. -/
def markerFree (doc : List Node) : Bool :=
  (flatListN doc).all nodeOk

/-- Every text string listed with context by `ctxNodes` is a text node
of the forest. -/
theorem ctxNodes_mem (nodes pF gF : List Node) (t : String × List Node × List Node)
    (h : t ∈ ctxNodes nodes pF gF) : Node.text t.1 ∈ flatListN nodes := by
  induction nodes, pF, gF using ctxNodes.induct with
  | case1 _ _ => simp [ctxNodes] at h
  | case2 s rest pF gF ih =>
    simp only [ctxNodes, List.mem_cons] at h
    rcases h with h | h
    · simp [flatListN, Node.flat, h]
    · simp only [flatListN, Node.flat, List.mem_append, List.mem_cons]
      right
      exact ih h
  | case3 tg a cs rest pF gF ih1 ih2 =>
    simp only [ctxNodes, List.mem_append] at h
    simp only [flatListN, Node.flat, List.mem_append, List.mem_cons]
    rcases h with h | h
    · left
      right
      exact ih1 h
    · right
      exact ih2 h

/-- In a marker-free document, no element search keyed on one of the
recognized tag names finds anything. -/
theorem findElem_tag_none (doc : List Node) (h : markerFree doc = true) (tg : String)
    (htg : BAD_TAGS.contains tg = true) (p : Node → Bool)
    (hp : ∀ n, p n = true → n.tagName = some tg) :
    findElem doc p = none := by
  rw [findElem, List.find?_eq_none]
  intro n hn hpn
  simp only [Bool.and_eq_true] at hpn
  have hok := List.all_eq_true.mp h n hn
  cases n with
  | text s => simp [Node.isElem] at hpn
  | elem t a cs =>
    have ht : t = tg := by
      have := hp _ hpn.2
      simpa [Node.tagName] using this
    simp only [nodeOk, Bool.and_eq_true] at hok
    rw [ht] at hok
    simp only [Bool.not_eq_true', List.isEmpty_iff] at hok
    rw [hok.2] at htg
    exact Bool.noConfusion htg

/-- In a marker-free document (all elements attribute-less), no search
keyed on attributes finds anything. -/
theorem findElem_attr_none (doc : List Node) (h : markerFree doc = true) (p : Node → Bool)
    (hp : ∀ n, n.attrsOf = [] → p n = false) :
    findElem doc p = none := by
  rw [findElem, List.find?_eq_none]
  intro n hn hpn
  simp only [Bool.and_eq_true] at hpn
  have hok := List.all_eq_true.mp h n hn
  cases n with
  | text s => simp [Node.isElem] at hpn
  | elem t a cs =>
    simp only [nodeOk, Bool.and_eq_true] at hok
    have ha : a = [] := List.isEmpty_iff.mp hok.1
    have := hp (.elem t a cs) (by simp [Node.attrsOf, ha])
    rw [this] at hpn
    exact Bool.noConfusion hpn.2

/-- Tag-keyed `find_all` is empty in a marker-free document. -/
theorem findAllElems_tag_nil (doc : List Node) (h : markerFree doc = true) (tg : String)
    (htg : BAD_TAGS.contains tg = true) (p : Node → Bool)
    (hp : ∀ n, p n = true → n.tagName = some tg) :
    findAllElems doc p = [] := by
  rw [findAllElems, List.filter_eq_nil_iff]
  intro n hn hpn
  simp only [Bool.and_eq_true] at hpn
  have hok := List.all_eq_true.mp h n hn
  cases n with
  | text s => simp [Node.isElem] at hpn
  | elem t a cs =>
    have ht : t = tg := by
      have := hp _ hpn.2
      simpa [Node.tagName] using this
    simp only [nodeOk, Bool.and_eq_true] at hok
    rw [ht] at hok
    simp only [Bool.not_eq_true', List.isEmpty_iff] at hok
    rw [hok.2] at htg
    exact Bool.noConfusion htg

/-- Attribute-keyed `find_all` is empty in a marker-free document. -/
theorem findAllElems_attr_nil (doc : List Node) (h : markerFree doc = true) (p : Node → Bool)
    (hp : ∀ n, n.attrsOf = [] → p n = false) :
    findAllElems doc p = [] := by
  rw [findAllElems, List.filter_eq_nil_iff]
  intro n hn hpn
  simp only [Bool.and_eq_true] at hpn
  have hok := List.all_eq_true.mp h n hn
  cases n with
  | text s => simp [Node.isElem] at hpn
  | elem t a cs =>
    simp only [nodeOk, Bool.and_eq_true] at hok
    have ha : a = [] := List.isEmpty_iff.mp hok.1
    have := hp (.elem t a cs) (by simp [Node.attrsOf, ha])
    rw [this] at hpn
    exact Bool.noConfusion hpn.2

/-- The PLZ pattern needs a digit; a digit-free string never matches. -/
theorem plzSearchAux_none :
    ∀ (l : List Char) (prev : Option Char), (∀ c ∈ l, c.isDigit = false) →
      plzSearchAux prev l = none := by
  intro l
  induction l with
  | nil => intro prev _; rfl
  | cons c1 t ih =>
    intro prev h
    rcases t with _ | ⟨c2, _ | ⟨c3, _ | ⟨c4, _ | ⟨c5, after⟩⟩⟩⟩
    · rfl
    · rfl
    · rfl
    · rfl
    · have hc1 : c1.isDigit = false := h c1 (List.mem_cons_self _ _)
      simp only [plzSearchAux, hc1, Bool.false_and, Bool.and_self, Bool.false_eq_true,
        if_false]
      exact ih (some c1) (fun c hc => h c (List.mem_cons_of_mem _ hc))

/-- A digit-free string never matches the PLZ pattern. -/
theorem plzSearch_none (s : String) (h : ∀ c ∈ s.data, c.isDigit = false) :
    plzSearch s = none :=
  plzSearchAux_none s.data none h

/-- In a marker-free document no text node matches the PLZ pattern. -/
theorem findAllMatchingStrings_plz_nil (doc : List Node) (h : markerFree doc = true) :
    findAllMatchingStrings doc (fun s => (plzSearch s).isSome) = [] := by
  rw [findAllMatchingStrings, List.filterMap_eq_nil_iff]
  intro n hn
  cases n with
  | text s =>
    have hok := List.all_eq_true.mp h _ hn
    simp only [nodeOk, Bool.and_eq_true, List.all_eq_true] at hok
    have hplz := plzSearch_none s (fun c hc => by simpa using hok.1 c hc)
    simp [hplz]
  | elem t a cs => rfl

/-- In a marker-free document `_find_detail_value` finds nothing, for
any of the three detail labels. -/
theorem find_detail_value_none (doc : List Node) (h : markerFree doc = true) (label : String)
    (hl : DETAIL_LABELS.contains (String.mk (lowerL label.data)) = true) :
    find_detail_value doc label = none := by
  have h1 : (ctxNodes doc [] []).find? (fun t => isLabelString label t.1) = none := by
    rw [List.find?_eq_none]
    intro t ht hlab
    have hmem := ctxNodes_mem doc [] [] t ht
    have hok := List.all_eq_true.mp h _ hmem
    simp only [nodeOk, Bool.and_eq_true, Bool.not_eq_true'] at hok
    simp only [isLabelString] at hlab
    have heq : lowerL (trimL t.1.data) = lowerL label.data := by
      simpa using hlab
    rw [heq] at hok
    rw [hok.2] at hl
    exact Bool.noConfusion hl
  have h2 : findAllElems doc (fun n => n.tagName = some "li") = [] :=
    findAllElems_tag_nil doc h "li" (by decide) _
      (fun n hp => by simpa [decide_eq_true_eq] using hp)
  simp only [find_detail_value, h1, h2, List.findSome?_nil]

/-- In a marker-free document the title degrades to the sentinel. -/
theorem extract_title_mf (doc : List Node) (h : markerFree doc = true) :
    extract_title doc = SENTINEL := by
  have hh1 : findElem doc (fun n => n.tagName = some "h1") = none :=
    findElem_tag_none doc h "h1" (by decide) _
      (fun n hp => by simpa [decide_eq_true_eq] using hp)
  have hti : findElem doc (fun n => n.tagName = some "title") = none :=
    findElem_tag_none doc h "title" (by decide) _
      (fun n hp => by simpa [decide_eq_true_eq] using hp)
  have hme : findElem doc
      (fun n => n.tagName = some "meta" && getAttr n "property" = some "og:title") = none :=
    findElem_tag_none doc h "meta" (by decide) _
      (fun n hp => by
        simp only [Bool.and_eq_true, decide_eq_true_eq] at hp
        exact hp.1)
  simp [extract_title, hh1, hti, hme]

/-- In a marker-free document the brand degrades to the sentinel. -/
theorem extract_brand_mf (doc : List Node) (h : markerFree doc = true) :
    extract_brand doc SENTINEL = SENTINEL := by
  have hm := find_detail_value_none doc h "Marke" (by decide)
  simp only [extract_brand, hm]
  decide

/-- In a marker-free document the year degrades to the sentinel. -/
theorem extract_year_mf (doc : List Node) (h : markerFree doc = true) :
    extract_year doc SENTINEL = SENTINEL := by
  have he := find_detail_value_none doc h "Erstzulassung" (by decide)
  have hb := find_detail_value_none doc h "Baujahr" (by decide)
  simp only [extract_year, he, hb]
  decide

/-- In a marker-free document the price degrades to the sentinel. -/
theorem extract_price_mf (doc : List Node) (h : markerFree doc = true) :
    extract_price doc = SENTINEL := by
  have h2 : findElem doc (fun n => n.tagName = some "h2" &&
      (match n.stringProp with | some s => (priceSearch s).isSome | none => false)) = none :=
    findElem_tag_none doc h "h2" (by decide) _
      (fun n hp => by
        simp only [Bool.and_eq_true, decide_eq_true_eq] at hp
        exact hp.1)
  have hs : findElem doc (fun n => n.tagName = some "span" &&
      (match n.stringProp with | some s => (priceSearch s).isSome | none => false)) = none :=
    findElem_tag_none doc h "span" (by decide) _
      (fun n hp => by
        simp only [Bool.and_eq_true, decide_eq_true_eq] at hp
        exact hp.1)
  have hc : findElem doc (classMatches ["price", "preis"]) = none :=
    findElem_attr_none doc h _
      (fun n ha => by simp [classMatches, getAttr, ha])
  have hme : findElem doc
      (fun n => n.tagName = some "meta" && getAttr n "itemprop" = some "price") = none :=
    findElem_tag_none doc h "meta" (by decide) _
      (fun n hp => by
        simp only [Bool.and_eq_true, decide_eq_true_eq] at hp
        exact hp.1)
  simp [extract_price, h2, hs, hc, hme, priceFromCands]

/-- In a marker-free document the location degrades to the sentinel. -/
theorem extract_location_mf (doc : List Node) (h : markerFree doc = true) :
    extract_location doc = SENTINEL := by
  have hti : findElem doc (fun n => n.tagName = some "title") = none :=
    findElem_tag_none doc h "title" (by decide) _
      (fun n hp => by simpa [decide_eq_true_eq] using hp)
  have hc : findAllElems doc (classMatches ["location", "standort", "adress"]) = [] :=
    findAllElems_attr_nil doc h _
      (fun n ha => by simp [classMatches, getAttr, ha])
  have had : findElem doc (fun n => getAttr n "itemprop" = some "address") = none :=
    findElem_attr_none doc h _
      (fun n ha => by simp [getAttr, ha])
  simp [extract_location, hti, hc, had, locFromClassEls]

/-- In a marker-free document the postal code degrades to the
sentinel (given the already-degraded location). -/
theorem extract_plz_mf (doc : List Node) (h : markerFree doc = true) :
    extract_plz doc SENTINEL = SENTINEL := by
  have hstr := findAllMatchingStrings_plz_nil doc h
  have hpo : findElem doc (fun n => getAttr n "itemprop" = some "postalCode") = none :=
    findElem_attr_none doc h _
      (fun n ha => by simp [getAttr, ha])
  have hsent : plzSearch SENTINEL = none := by decide
  simp [extract_plz, hstr, hpo, hsent]

/-- C6: `parse_listing_page` always returns a `ListingDetails` record
(total by construction) carrying the given listing id and url; on a
detail page containing none of the recognized title/brand/year/price/
location/postal-code markers, every extracted field degrades
independently to the sentinel "—". -/
theorem C6_listing_page_degrades (doc : List Node) (url listing_id : String)
    (h : markerFree doc = true) :
    parse_listing_page doc url listing_id =
      ⟨listing_id, url, SENTINEL, SENTINEL, SENTINEL, SENTINEL, SENTINEL, SENTINEL⟩ := by
  have ht := extract_title_mf doc h
  have hl := extract_location_mf doc h
  simp only [parse_listing_page, ht, hl, extract_brand_mf doc h, extract_year_mf doc h,
    extract_price_mf doc h, extract_plz_mf doc h]

/-- Witness for C6 at a concrete marker-free page. -/
theorem C6_listing_page_degrades_witness :
    parse_listing_page [Node.elem "html" [] [Node.elem "body" [] [Node.text "hello there"]]]
      "u" "id1" = ⟨"id1", "u", SENTINEL, SENTINEL, SENTINEL, SENTINEL, SENTINEL, SENTINEL⟩ :=
  C6_listing_page_degrades
    [Node.elem "html" [] [Node.elem "body" [] [Node.text "hello there"]]] "u" "id1"
    (by decide)
